import Mathlib

/-!
Verification of the local-execution engine (Docker executor, local controller,
run registry) of the argo-workflows local mode, as a shallow embedding.

Source files embedded:
- `workflow/executor/local/docker_executor.go` (DockerExecutor)
- `local_controller.go` (LocalController, WorkflowExecution)

Go maps are modelled as association lists; the shared mutable `Status.Nodes`
map is modelled through an explicit heap of references, so that Go's
reference semantics for maps (aliasing on struct copy) is captured.
Interaction with the Docker daemon is modelled by an oracle record giving the
outcome of each runtime call of a single container execution.
-/

namespace ArgoLocal

/-- Environment variable (name/value pair), from `wfv1.EnvVar`. -/
structure EnvVar where
  name : String
  value : String
deriving DecidableEq

/-- Volume-mount declaration (name and mount path), from `wfv1.VolumeMount`. -/
structure VolumeMount where
  name : String
  mountPath : String
deriving DecidableEq

/-- Container spec of a unit-of-work template (`tmpl.Container`). -/
structure ContainerSpec where
  image : String
  command : List String
  args : List String
  workingDir : String
  env : List EnvVar
  volumeMounts : List VolumeMount
deriving DecidableEq

/-- Script spec of a unit-of-work template (`tmpl.Script`). -/
structure ScriptSpec where
  image : String
  command : List String
  source : String
  workingDir : String
  env : List EnvVar
deriving DecidableEq

/-- One step of a step group (`wfv1.WorkflowStep`): a named template reference. -/
structure WorkflowStep where
  name : String
  template : String
deriving DecidableEq

/-- One step group (`wfv1.ParallelSteps`): steps executed concurrently. -/
structure ParallelSteps where
  steps : List WorkflowStep
deriving DecidableEq

/-- One task of a task graph (`wfv1.DAGTask`): a named template reference with
declared dependencies (which the local controller never reads). -/
structure DAGTask where
  name : String
  template : String
  dependencies : List String
deriving DecidableEq

/-- Task-graph template body (`wfv1.DAGTemplate`). -/
structure DAGTemplate where
  tasks : List DAGTask
deriving DecidableEq

/-- A workflow template (`wfv1.Template`): name plus at most one of the four
kinds handled by `LocalController.executeTemplate`. -/
structure Template where
  name : String
  container : Option ContainerSpec
  script : Option ScriptSpec
  steps : Option (List ParallelSteps)
  dag : Option DAGTemplate
deriving DecidableEq

/-- Node phases used by the local executor (`wfv1.NodePhase`). -/
inductive NodePhase where
  | running
  | succeeded
  | failed
  | error
deriving DecidableEq

/-- Workflow phases (`wfv1.WorkflowPhase`); `unset` is the Go empty string. -/
inductive WorkflowPhase where
  | unset
  | pending
  | running
  | succeeded
  | failed
deriving DecidableEq

/-- Node status (`wfv1.NodeStatus`), restricted to the fields the local
executor populates.  `outputs` models `Outputs.Parameters` as name/value
pairs.  Timestamps are abstract instants (`Nat`). -/
structure NodeStatus where
  id : String
  name : String
  displayName : String
  phase : NodePhase
  message : String
  startedAt : Option Nat
  finishedAt : Option Nat
  hostNodeName : String
  outputs : Option (List (String × String))
deriving DecidableEq

/-- Result of the `select` over `ContainerWait`'s two channels:
either the error channel delivered a value (possibly `nil`, which the code
checks for), or the status channel delivered an exit code. -/
inductive WaitResult where
  | errNil
  | waitErr (msg : String)
  | exited (code : Int)
deriving DecidableEq

/-- Oracle for one container execution: the outcome of each call the adapter
makes against the Docker daemon, plus the clock readings taken by the
adapter.  `logs` is the result of `getContainerLogs`; `removeErr` the result
of `ContainerRemove` (consulted by the code only for logging). -/
structure RuntimeOutcome where
  createErr : Option String
  startErr : Option String
  wait : WaitResult
  logs : Except String String
  removeErr : Option String
  startTime : Nat
  finishTime : Nat

/-- `strings.ReplaceAll(s, ".", "-")`: with a single-character pattern and
replacement this is exactly a character-wise map. -/
def sanitizeDots (s : String) : String :=
  String.mk (s.data.map (fun c => if c = '.' then '-' else c))

/-- `fmt.Sprintf("argo-%s-%s", wf.Name, nodeName)` followed by
`strings.ReplaceAll(containerName, ".", "-")`
(docker_executor.go, ExecuteContainer lines 94-96 and ExecuteScript 201-202). -/
def containerName (wfName nodeName : String) : String :=
  sanitizeDots ("argo-" ++ wfName ++ "-" ++ nodeName)

/-- `DockerExecutor.buildEnvVars` (docker_executor.go lines 266-287): three
injected identifiers, then the container env entries, then the script env
entries, each rendered as `NAME=value`. -/
def buildEnvVars (tmpl : Template) (wfName nodeName : String) : List String :=
  let base :=
    ["ARGO_WORKFLOW_NAME=" ++ wfName,
     "ARGO_NODE_NAME=" ++ nodeName,
     "ARGO_TEMPLATE_NAME=" ++ tmpl.name]
  let withContainer :=
    match tmpl.container with
    | some c => base ++ c.env.map (fun e => e.name ++ "=" ++ e.value)
    | none => base
  match tmpl.script with
  | some s => withContainer ++ s.env.map (fun e => e.name ++ "=" ++ e.value)
  | none => withContainer

/-- The `Cmd` list built for a container template:
`Cmd := Command`, then `Args` appended when non-empty. -/
def containerCmd (c : ContainerSpec) : List String :=
  if c.args.length > 0 then c.command ++ c.args else c.command

/-- The `Cmd` list built for a script template (docker_executor.go lines
181-195): `Command[0]` is indexed unconditionally, so an empty command list
is a Go index-out-of-range panic, modelled as `none`; otherwise the full
command is followed by `-c` and the inline source. -/
def scriptCmd (s : ScriptSpec) : Option (List String) :=
  match s.command with
  | [] => none
  | c0 :: rest => some ((c0 :: rest) ++ ["-c", s.source])

/-- What `DockerExecutor.ExecuteContainer` / `ExecuteScript` hand back to the
controller: the `*wfv1.NodeStatus` (possibly `nil`), the `error` (possibly
`nil`), and — for the cleanup claims — whether `ContainerRemove` was called
before returning. -/
structure AdapterResult where
  node : Option NodeStatus
  err : Option String
  removeCalled : Bool
deriving DecidableEq

/-- Shared tail of `ExecuteContainer`/`ExecuteScript` from the point where the
container has been created and started: the `select` on `ContainerWait`, the
result mapping on the exit code, log capture, and cleanup.  `msgKind` is the
Sprintf frame of the failure message ("container" or "script"). -/
def awaitAndCollect (o : RuntimeOutcome) (ns0 : NodeStatus) (msgKind : String) :
    AdapterResult :=
  match o.wait with
  | .waitErr e =>
      -- `case err := <-errCh: if err != nil { ... return nodeStatus, err }`
      -- (early return: ContainerRemove is never reached on this path)
      ⟨some { ns0 with phase := .error, message := e }, some e, false⟩
  | .errNil =>
      -- `err == nil`: the select falls through with the status untouched
      ⟨some ns0, none, true⟩
  | .exited code =>
      let ns1 := { ns0 with finishedAt := some o.finishTime }
      let ns2 :=
        if code = 0 then { ns1 with phase := .succeeded }
        else { ns1 with phase := .failed,
                        message := msgKind ++ " exited with code " ++ toString code }
      let ns3 :=
        match o.logs with
        | .error _ => ns2
        | .ok l => { ns2 with outputs := some [("logs", l)] }
      ⟨some ns3, none, true⟩

/-- `DockerExecutor.ExecuteContainer` (docker_executor.go lines 52-169).
`nid` models `wf.NodeID`. -/
def executeContainer (nid : String → String) (o : RuntimeOutcome)
    (nodeName : String) (tmpl : Template) (wfName : String) : AdapterResult :=
  match tmpl.container with
  | none => ⟨none, some ("template " ++ tmpl.name ++ " does not have a container spec"), false⟩
  | some _ =>
    match o.createErr with
    | some e => ⟨none, some ("failed to create container: " ++ e), false⟩
    | none =>
      match o.startErr with
      | some e => ⟨none, some ("failed to start container: " ++ e), false⟩
      | none =>
        let ns0 : NodeStatus :=
          { id := nid nodeName
            name := nodeName
            displayName := nodeName
            phase := .running
            message := ""
            startedAt := some o.startTime
            finishedAt := none
            hostNodeName := containerName wfName nodeName
            outputs := none }
        awaitAndCollect o ns0 "container"

/-- `DockerExecutor.ExecuteScript` (docker_executor.go lines 172-263).
`none` models the index-out-of-range panic on `tmpl.Script.Command[0]`. -/
def executeScript (nid : String → String) (o : RuntimeOutcome)
    (nodeName : String) (tmpl : Template) (wfName : String) :
    Option AdapterResult :=
  match tmpl.script with
  | none => some ⟨none, some ("template " ++ tmpl.name ++ " does not have a script spec"), false⟩
  | some s =>
    match scriptCmd s with
    | none => none
    | some _ =>
      some (match o.createErr with
      | some e => ⟨none, some ("failed to create container: " ++ e), false⟩
      | none =>
        match o.startErr with
        | some e => ⟨none, some ("failed to start container: " ++ e), false⟩
        | none =>
          let ns0 : NodeStatus :=
            { id := nid nodeName
              name := nodeName
              displayName := nodeName
              phase := .running
              message := ""
              startedAt := some o.startTime
              finishedAt := none
              hostNodeName := containerName wfName nodeName
              outputs := none }
          awaitAndCollect o ns0 "script")

/-- The node-status mapping `Status.Nodes` of one run: a Go map from node id
to node status, modelled as an association list with in-place replacement. -/
abbrev NodesMap : Type := List (String × NodeStatus)

/-- Go map assignment `m[k] = v`: replace the binding of `k` or add one. -/
def upsert (m : NodesMap) (k : String) (v : NodeStatus) : NodesMap :=
  match m with
  | [] => [(k, v)]
  | (k', v') :: rest =>
      if k' = k then (k, v) :: rest else (k', v') :: upsert rest k v

/-- Go map read `m[k]`. -/
def mapFind (m : NodesMap) (k : String) : Option NodeStatus :=
  match m with
  | [] => none
  | (k', v') :: rest => if k' = k then some v' else mapFind rest k

/-- `LocalController.executeContainerTemplate` (local_controller.go lines
152-167): call the adapter; on a non-nil error return it at once (the
returned node status, if any, is dropped); otherwise record the node status
and fail on a Failed/Error phase. -/
def executeContainerTemplate (nid : String → String) (o : RuntimeOutcome)
    (nodeName : String) (tmpl : Template) (wfName : String) (nodes : NodesMap) :
    NodesMap × Option String :=
  let r := executeContainer nid o nodeName tmpl wfName
  match r.err with
  | some e => (nodes, some e)
  | none =>
    match r.node with
    | none => (nodes, none)
    | some ns =>
      let nodes' := upsert nodes ns.id ns
      if ns.phase = .failed ∨ ns.phase = .error then
        (nodes', some ("container execution failed: " ++ ns.message))
      else
        (nodes', none)

/-- `LocalController.executeScriptTemplate` (local_controller.go lines
170-185); `none` propagates the adapter's panic. -/
def executeScriptTemplate (nid : String → String) (o : RuntimeOutcome)
    (nodeName : String) (tmpl : Template) (wfName : String) (nodes : NodesMap) :
    Option (NodesMap × Option String) :=
  match executeScript nid o nodeName tmpl wfName with
  | none => none
  | some r =>
    some (match r.err with
    | some e => (nodes, some e)
    | none =>
      match r.node with
      | none => (nodes, none)
      | some ns =>
        let nodes' := upsert nodes ns.id ns
        if ns.phase = .failed ∨ ns.phase = .error then
          (nodes', some ("script execution failed: " ++ ns.message))
        else
          (nodes', none))

/-- The error returned by `executeContainerTemplate`/`executeScriptTemplate`
as a function of the adapter result alone (the nodes map never influences
it); `kindMsg` is "container execution failed: " or "script execution
failed: ". -/
def leafResult (kindMsg : String) (r : AdapterResult) : Option String :=
  match r.err with
  | some e => some e
  | none =>
    match r.node with
    | none => none
    | some ns =>
      if ns.phase = .failed ∨ ns.phase = .error then
        some (kindMsg ++ ns.message)
      else none

/-- Template lookup: the `for ... if Templates[i].Name == name { break }`
loops in local_controller.go take the first template with a matching name. -/
def findTemplate (ts : List Template) (tname : String) : Option Template :=
  ts.find? (fun t => t.name = tname)

/-- Step node name: `fmt.Sprintf("%s[%d].%s", nodeName, i, s.Name)`
(local_controller.go line 205). -/
def stepNodeName (nodeName : String) (i : Nat) (stepName : String) : String :=
  nodeName ++ "[" ++ toString i ++ "]." ++ stepName

/-- Task node name: `fmt.Sprintf("%s.%s", nodeName, t.Name)`
(local_controller.go line 255). -/
def taskNodeName (nodeName : String) (taskName : String) : String :=
  nodeName ++ "." ++ taskName

/-! ## Run registry (LocalController) and the heap of node-status maps

In Go, `WorkflowExecution.Status` points at `Workflow.Status`, and
`Status.Nodes` is a map, i.e. a reference.  `GetWorkflow` deep-copies the
workflow and then overwrites the copy's status with a shallow struct copy of
the live status, so the returned status carries the live `Nodes` reference.
We model map references as indices into an explicit heap. -/

/-- The heap of allocated node-status maps; a reference is an index. -/
structure Heap where
  data : List NodesMap
deriving DecidableEq

/-- Dereference a node-status map. -/
def Heap.read (h : Heap) (r : Nat) : NodesMap :=
  h.data.getD r []

/-- Overwrite the map behind a reference. -/
def Heap.write (h : Heap) (r : Nat) (m : NodesMap) : Heap :=
  ⟨h.data.set r m⟩

/-- Allocate a fresh map (`make(map[string]NodeStatus)` or the fresh map a
`DeepCopy` produces). -/
def Heap.alloc (h : Heap) (m : NodesMap) : Heap × Nat :=
  (⟨h.data ++ [m]⟩, h.data.length)

/-- Workflow status (`wfv1.WorkflowStatus`), restricted to the fields the
local controller touches.  `nodes` is a reference to the node-status map
(`none` is the Go `nil` map). -/
structure WorkflowStatus where
  phase : WorkflowPhase
  message : String
  startedAt : Option Nat
  finishedAt : Option Nat
  nodes : Option Nat
deriving DecidableEq

/-- Workflow spec: entry-point name plus the template list. -/
structure WorkflowSpec where
  entrypoint : String
  templates : List Template
deriving DecidableEq

/-- A workflow object (`wfv1.Workflow`): name, spec, and status.  In Go the
registered `WorkflowExecution` aliases this object's status, so one
`Workflow` value per registry entry is the whole mutable run state (the
shared `Nodes` map lives in the heap). -/
structure Workflow where
  name : String
  spec : WorkflowSpec
  status : WorkflowStatus
deriving DecidableEq

/-- The registry map `LocalController.workflows`, with the heap holding every
allocated node-status map. -/
structure ControllerState where
  workflows : List (String × Workflow)
  heap : Heap
deriving DecidableEq

/-- Go map assignment on the registry (`lc.workflows[wf.Name] = wfExec`). -/
def regUpsert (m : List (String × Workflow)) (k : String) (v : Workflow) :
    List (String × Workflow) :=
  match m with
  | [] => [(k, v)]
  | (k', v') :: rest =>
      if k' = k then (k, v) :: rest else (k', v') :: regUpsert rest k v

/-- Go map read on the registry (`lc.workflows[name]`). -/
def regFind (m : List (String × Workflow)) (k : String) : Option Workflow :=
  match m with
  | [] => none
  | (k', v') :: rest => if k' = k then some v' else regFind rest k

/-- `LocalController.SubmitWorkflow` (local_controller.go lines 44-69): if the
incoming status phase is empty, set it to Pending and stamp the start time;
store the execution under the workflow's name (overwriting any existing
entry — there is no duplicate check); spawn the walk and return `nil`.
The spawned walk is not run here: the returned state is the state the
submitter observes when `SubmitWorkflow` returns. -/
def submitWorkflow (st : ControllerState) (wf : Workflow) (now : Nat) :
    ControllerState × Option String :=
  let wf' :=
    if wf.status.phase = .unset then
      { wf with status := { wf.status with phase := .pending, startedAt := some now } }
    else wf
  ({ st with workflows := regUpsert st.workflows wf'.name wf' }, none)

/-- The deep copy a `wf.DeepCopy()` makes of the status: a fresh map is
allocated for `Nodes` and the reference replaced. -/
def deepCopyStatus (h : Heap) (s : WorkflowStatus) : WorkflowStatus × Heap :=
  match s.nodes with
  | none => (s, h)
  | some r =>
      let (h', r') := h.alloc (h.read r)
      ({ s with nodes := some r' }, h')

/-- `LocalController.GetWorkflow` (local_controller.go lines 300-317): look
the run up (error `"workflow '<name>' not found"` if absent), deep-copy the
workflow, then overwrite the copy's status with a shallow struct copy of the
live status — which discards the freshly copied `Nodes` map and leaves the
live map reference in the returned value. -/
def getWorkflow (st : ControllerState) (name : String) :
    Except String Workflow × Heap :=
  match regFind st.workflows name with
  | none => (.error ("workflow \x27" ++ name ++ "\x27 not found"), st.heap)
  | some stored =>
      let (copiedStatus, h') := deepCopyStatus st.heap stored.status
      let deepCopied : Workflow := { stored with status := copiedStatus }
      (.ok { deepCopied with status := stored.status }, h')

/-- The node-status write the walk performs
(`wfExec.Status.Nodes[nodeStatus.ID] = *nodeStatus`, under the run's lock). -/
def updateNode (st : ControllerState) (runName : String) (ns : NodeStatus) :
    ControllerState :=
  match regFind st.workflows runName with
  | none => st
  | some wf =>
    match wf.status.nodes with
    | none => st
    | some r =>
        { st with heap := st.heap.write r (upsert (st.heap.read r) ns.id ns) }

/-- The node-status view a returned workflow value gives at a point in time:
dereference its `Nodes` map in the current heap. -/
def renderNodes (h : Heap) (s : WorkflowStatus) : NodesMap :=
  match s.nodes with
  | none => []
  | some r => h.read r

/-! ## Trace semantics of the template walk

`LocalController.executeTemplate` and its steps/DAG cases are given a
big-step trace semantics: a relation between a node name, a template, the
sequence of observable node events (in wall-clock order), and the returned
error.  Concurrency inside a step group / task graph is modelled by
nondeterministic interleaving of the children's traces (`Merge`/`MergeAll`);
the error drawn from the group's channel is modelled as an arbitrary member
of the collected error list. -/

/-- Observable events of a walk: a unit-of-work node's adapter call returned
a node status — `nodeStart` when the container was created and started
(phase Running stamped), `nodeFinish` with the returned phase. -/
inductive Event where
  | nodeStart (node : String)
  | nodeFinish (node : String) (ph : NodePhase)
deriving DecidableEq

/-- The events one adapter call contributes: nothing when it returned no node
status, otherwise a start and a finish carrying the returned phase. -/
def adapterEvents (nodeName : String) (r : AdapterResult) : List Event :=
  match r.node with
  | none => []
  | some ns => [.nodeStart nodeName, .nodeFinish nodeName ns.phase]

/-- An interleaving of two event sequences that keeps each one's order. -/
inductive Merge : List Event → List Event → List Event → Prop where
  | nil : Merge [] [] []
  | consLeft (a : Event) {l r u : List Event} :
      Merge l r u → Merge (a :: l) r (a :: u)
  | consRight (a : Event) {l r u : List Event} :
      Merge l r u → Merge l (a :: r) (a :: u)

/-- An interleaving of a list of event sequences. -/
inductive MergeAll : List (List Event) → List Event → Prop where
  | nil : MergeAll [] []
  | cons {t : List Event} {ts : List (List Event)} {u v : List Event} :
      MergeAll ts v → Merge t v u → MergeAll (t :: ts) u

/-- Prepend an optional error to a collected error list (the goroutines send
on `errChan` only when they have a non-nil error). -/
def consErr (res : Option String) (errs : List String) : List String :=
  match res with
  | some e => e :: errs
  | none => errs

/-- Everything the walk relation depends on besides the template graph
position: the per-node runtime oracle, the node-id function `wf.NodeID`, the
run name, and the document's template list. -/
structure ExecEnv where
  o : String → RuntimeOutcome
  nid : String → String
  wfName : String
  templates : List Template

mutual

/-- Big-step trace semantics of `LocalController.executeTemplate`
(local_controller.go lines 127-149): dispatch on the template kind in the
order of the Go `switch` (container, script, steps, DAG, unsupported). -/
inductive ExecT (E : ExecEnv) : String → Template → List Event → Option String → Prop where
  | container (n : String) (tmpl : Template) (c : ContainerSpec)
      (hc : tmpl.container = some c) :
      ExecT E n tmpl
        (adapterEvents n (executeContainer E.nid (E.o n) n tmpl E.wfName))
        (leafResult "container execution failed: "
          (executeContainer E.nid (E.o n) n tmpl E.wfName))
  | script (n : String) (tmpl : Template) (s : ScriptSpec) (r : AdapterResult)
      (hc : tmpl.container = none) (hs : tmpl.script = some s)
      (hr : executeScript E.nid (E.o n) n tmpl E.wfName = some r) :
      ExecT E n tmpl (adapterEvents n r) (leafResult "script execution failed: " r)
  | steps (n : String) (tmpl : Template) (groups : List ParallelSteps)
      {trace : List Event} {res : Option String}
      (hc : tmpl.container = none) (hs : tmpl.script = none)
      (hst : tmpl.steps = some groups)
      (h : ExecGroups E n groups 0 trace res) :
      ExecT E n tmpl trace res
  | dag (n : String) (tmpl : Template) (d : DAGTemplate)
      {traces : List (List Event)} {errs : List String}
      {trace : List Event} {res : Option String}
      (hc : tmpl.container = none) (hs : tmpl.script = none)
      (hst : tmpl.steps = none) (hd : tmpl.dag = some d)
      (ht : ExecTasks E n d.tasks traces errs)
      (hm : MergeAll traces trace)
      (hres : (errs = [] ∧ res = none) ∨ (∃ e, e ∈ errs ∧ res = some e)) :
      ExecT E n tmpl trace res
  | unsupported (n : String) (tmpl : Template)
      (hc : tmpl.container = none) (hs : tmpl.script = none)
      (hst : tmpl.steps = none) (hd : tmpl.dag = none) :
      ExecT E n tmpl []
        (some ("unsupported template type for template " ++ tmpl.name))

/-- `LocalController.executeStepsTemplate` (local_controller.go lines
188-239): groups run in declared order; a group whose collected error list
is empty lets the walk continue; otherwise the first error read from the
channel (any collected error, since channel order is completion order) is
returned and the remaining groups never run. -/
inductive ExecGroups (E : ExecEnv) : String → List ParallelSteps → Nat → List Event → Option String → Prop where
  | nil (n : String) (i : Nat) : ExecGroups E n [] i [] none
  | consOk (n : String) (g : ParallelSteps) (rest : List ParallelSteps) (i : Nat)
      {traces : List (List Event)} {gtrace resttrace : List Event} {res : Option String}
      (hg : ExecGroup E n i g.steps traces [])
      (hm : MergeAll traces gtrace)
      (hrest : ExecGroups E n rest (i + 1) resttrace res) :
      ExecGroups E n (g :: rest) i (gtrace ++ resttrace) res
  | consErrCase (n : String) (g : ParallelSteps) (rest : List ParallelSteps) (i : Nat)
      {traces : List (List Event)} {errs : List String} {gtrace : List Event} {e : String}
      (hg : ExecGroup E n i g.steps traces errs)
      (hm : MergeAll traces gtrace)
      (he : e ∈ errs) :
      ExecGroups E n (g :: rest) i gtrace (some e)

/-- One step group's goroutines (local_controller.go lines 197-228), in step
order: each step either fails template resolution (no events, a
`template not found` error is sent) or executes the resolved template.
`traces` collects the per-step event sequences, `errs` the errors sent on
the group's channel. -/
inductive ExecGroup (E : ExecEnv) : String → Nat → List WorkflowStep → List (List Event) → List String → Prop where
  | nil (n : String) (i : Nat) : ExecGroup E n i [] [] []
  | consNotFound (n : String) (i : Nat) (s : WorkflowStep) (rest : List WorkflowStep)
      {traces : List (List Event)} {errs : List String}
      (hnf : findTemplate E.templates s.template = none)
      (h : ExecGroup E n i rest traces errs) :
      ExecGroup E n i (s :: rest) ([] :: traces)
        (("template \x27" ++ s.template ++ "\x27 not found for step \x27" ++ s.name ++ "\x27") :: errs)
  | consFound (n : String) (i : Nat) (s : WorkflowStep) (rest : List WorkflowStep)
      (tmpl : Template) {trace : List Event} {res : Option String}
      {traces : List (List Event)} {errs : List String}
      (hf : findTemplate E.templates s.template = some tmpl)
      (hx : ExecT E (stepNodeName n i s.name) tmpl trace res)
      (h : ExecGroup E n i rest traces errs) :
      ExecGroup E n i (s :: rest) (trace :: traces) (consErr res errs)

/-- `LocalController.executeDAGTemplate`'s goroutines (local_controller.go
lines 250-275), in task order; the declared dependencies are never read. -/
inductive ExecTasks (E : ExecEnv) : String → List DAGTask → List (List Event) → List String → Prop where
  | nil (n : String) : ExecTasks E n [] [] []
  | consNotFound (n : String) (t : DAGTask) (rest : List DAGTask)
      {traces : List (List Event)} {errs : List String}
      (hnf : findTemplate E.templates t.template = none)
      (h : ExecTasks E n rest traces errs) :
      ExecTasks E n (t :: rest) ([] :: traces)
        (("template \x27" ++ t.template ++ "\x27 not found for task \x27" ++ t.name ++ "\x27") :: errs)
  | consFound (n : String) (t : DAGTask) (rest : List DAGTask)
      (tmpl : Template) {trace : List Event} {res : Option String}
      {traces : List (List Event)} {errs : List String}
      (hf : findTemplate E.templates t.template = some tmpl)
      (hx : ExecT E (taskNodeName n t.name) tmpl trace res)
      (h : ExecTasks E n rest traces errs) :
      ExecTasks E n (t :: rest) (trace :: traces) (consErr res errs)

end

/-! ## Spec-side predicates

The following definitions transcribe the spec's wording; the claim theorems
relate them to the embedded source definitions above. -/

/-- Every node that started in the trace also finished (no sibling is
skipped or cancelled mid-flight). -/
def pairedTrace (trace : List Event) : Prop :=
  ∀ nm, Event.nodeStart nm ∈ trace → ∃ ph, Event.nodeFinish nm ph ∈ trace

/-- Every finish event carries a terminal phase (no node is left Running). -/
def terminalFinish (trace : List Event) : Prop :=
  ∀ nm ph, Event.nodeFinish nm ph ∈ trace → ph ≠ NodePhase.running

/-- A trace in which every started node reaches a terminal phase. -/
def goodTrace (trace : List Event) : Prop :=
  pairedTrace trace ∧ terminalFinish trace

/-- `sub` occurs contiguously inside `s`. -/
def strContains (s sub : String) : Prop :=
  ∃ pre post, s = pre ++ sub ++ post

/-- Whether an `NAME=value` entry binds the variable `nm`. -/
def envEntryFor (nm entry : String) : Bool :=
  (nm ++ "=").data.isPrefixOf entry.data

/-- The binding an environment list gives to `nm`: the first entry for it. -/
def envFirst (envs : List String) (nm : String) : Option String :=
  envs.find? (fun e => envEntryFor nm e)

/-- The template-declared environment entries in document order (spec:
"document ordering determines the declared ones"). -/
def declaredEnv (tmpl : Template) : List String :=
  (match tmpl.container with
   | some c => c.env.map (fun e => e.name ++ "=" ++ e.value)
   | none => []) ++
  (match tmpl.script with
   | some s => s.env.map (fun e => e.name ++ "=" ++ e.value)
   | none => [])

/-- Replace a task's declared dependencies (the controller never reads them). -/
def DAGTask.withDeps (t : DAGTask) (ds : List String) : DAGTask :=
  { t with dependencies := ds }

/-- The spec's step-list contract, for a steps body whose first group has
index `i0`: a prefix `executed` of the groups ran, in declared order; each
executed group ran every one of its steps to completion, its per-step traces
merged into one contiguous segment of the overall trace; consecutive
executed groups are separated by a strict barrier (a cut of the whole trace
with group `i` entirely before it and group `j` entirely after); every group
before the last executed one was error-free; a `none` result means all
groups ran error-free; an error result is a real error collected in the last
executed group, and the remaining groups contribute nothing to the trace. -/
def StepsClaimFrom (E : ExecEnv) (n : String) (i0 : Nat)
    (groups : List ParallelSteps) (trace : List Event) (res : Option String) : Prop :=
  ∃ executed rest : List ParallelSteps, ∃ gts : List (List Event),
  ∃ errss : List (List String),
    groups = executed ++ rest ∧
    gts.length = executed.length ∧
    errss.length = executed.length ∧
    trace = gts.flatten ∧
    (∀ i (hi : i < executed.length) (hg : i < gts.length) (he : i < errss.length),
      ∃ traces, ExecGroup E n (i0 + i) (executed.get ⟨i, hi⟩).steps traces (errss.get ⟨i, he⟩) ∧
        MergeAll traces (gts.get ⟨i, hg⟩)) ∧
    (∀ i j (hi : i < gts.length) (hj : j < gts.length), i < j →
      ∃ pre post : List Event, trace = pre ++ post ∧
        (∃ a, pre = a ++ gts.get ⟨i, hi⟩) ∧
        (∃ a b, post = a ++ gts.get ⟨j, hj⟩ ++ b)) ∧
    (∀ i (hi : i < errss.length), i + 1 < errss.length → errss.get ⟨i, hi⟩ = []) ∧
    (res = none → rest = [] ∧ ∀ i (hi : i < errss.length), errss.get ⟨i, hi⟩ = []) ∧
    (∀ e, res = some e → ∃ hk : 0 < errss.length,
      e ∈ errss.get ⟨errss.length - 1, Nat.sub_lt hk Nat.one_pos⟩)

/-- The spec's task-graph contract: every declared task was dispatched (one
per-task trace each, in task order), the overall trace is an arbitrary
interleaving of the complete per-task traces, any other interleaving of the
same per-task executions would be an admissible trace as well (no ordering,
declared dependencies included, is enforced), the walk result is `none`
exactly when no task errored, and an error result is a real collected
error — reported only once every task has run to completion. -/
def DagClaimHolds (E : ExecEnv) (n : String) (tmpl : Template)
    (tasks : List DAGTask) (trace : List Event) (res : Option String) : Prop :=
  ∃ traces : List (List Event), ∃ errs : List String,
    traces.length = tasks.length ∧
    ExecTasks E n tasks traces errs ∧
    MergeAll traces trace ∧
    (∀ u, MergeAll traces u → ExecT E n tmpl u res) ∧
    (∀ ds : DAGTask → List String,
      ExecTasks E n (tasks.map (fun t => t.withDeps (ds t))) traces errs) ∧
    (res = none ↔ errs = []) ∧
    (∀ e, res = some e → e ∈ errs)

/-! ## Concrete fixtures used by witnesses and counterexamples -/

/-- A unit-of-work container spec (the docs' whalesay example). -/
def whaleC : ContainerSpec :=
  { image := "docker/whalesay"
    command := ["cowsay"]
    args := ["hello"]
    workingDir := ""
    env := []
    volumeMounts := [] }

/-- A container template named `whale`. -/
def tmplWhale : Template :=
  { name := "whale", container := some whaleC, script := none, steps := none, dag := none }

/-- A two-group step-list template, one `whale` step per group. -/
def tmplSteps : Template :=
  { name := "main"
    container := none
    script := none
    steps := some [⟨[⟨"s1", "whale"⟩]⟩, ⟨[⟨"s2", "whale"⟩]⟩]
    dag := none }

/-- A two-task task-graph template referencing `whale` twice. -/
def tmplDag : Template :=
  { name := "graph"
    container := none
    script := none
    steps := none
    dag := some ⟨[⟨"t1", "whale", []⟩, ⟨"t2", "whale", ["t1"]⟩]⟩ }

/-- A script template whose command list is empty. -/
def tmplScriptEmptyCmd : Template :=
  { name := "sc"
    container := none
    script := some { image := "python:alpine", command := [], source := "print(1)", workingDir := "", env := [] }
    steps := none
    dag := none }

/-- A script template with command `python`. -/
def tmplScriptPy : Template :=
  { name := "py"
    container := none
    script := some { image := "python:alpine", command := ["python"], source := "print(1)", workingDir := "", env := [] }
    steps := none
    dag := none }

/-- Runtime oracle: the container ran and exited 0; logs captured. -/
def oExitOK : RuntimeOutcome :=
  { createErr := none, startErr := none, wait := .exited 0
    logs := .ok "hello", removeErr := none, startTime := 0, finishTime := 1 }

/-- Runtime oracle: the container ran and exited 1. -/
def oExitFail : RuntimeOutcome :=
  { createErr := none, startErr := none, wait := .exited 1
    logs := .ok "", removeErr := none, startTime := 0, finishTime := 1 }

/-- Runtime oracle: `ContainerWait` delivered an error. -/
def oWaitBoom : RuntimeOutcome :=
  { createErr := none, startErr := none, wait := .waitErr "wait failed"
    logs := .ok "", removeErr := none, startTime := 0, finishTime := 1 }

/-- Walk environment for the fixtures: every node's wait exits 0. -/
def envOK : ExecEnv :=
  { o := fun _ => oExitOK
    nid := fun s => s
    wfName := "run-a"
    templates := [tmplWhale, tmplSteps, tmplDag] }

/-- A freshly parsed workflow (empty status), as submitted. -/
def wfSubA : Workflow :=
  { name := "run-a"
    spec := { entrypoint := "main", templates := [tmplWhale, tmplSteps] }
    status := { phase := .unset, message := "", startedAt := none, finishedAt := none, nodes := none } }

/-- A second fresh workflow with the same name but a different spec. -/
def wfSubB : Workflow :=
  { name := "run-a"
    spec := { entrypoint := "whale", templates := [tmplWhale] }
    status := { phase := .unset, message := "", startedAt := none, finishedAt := none, nodes := none } }

/-- A running registered workflow whose node map is heap reference 0. -/
def wfReg : Workflow :=
  { name := "run-a"
    spec := { entrypoint := "main", templates := [tmplWhale, tmplSteps] }
    status := { phase := .running, message := "", startedAt := some 0, finishedAt := none, nodes := some 0 } }

/-- Controller state holding `wfReg` with an empty node map in the heap. -/
def stReg : ControllerState :=
  { workflows := [("run-a", wfReg)], heap := ⟨[[]]⟩ }

/-- A node status the walk writes after a successful leaf. -/
def nsDone : NodeStatus :=
  { id := "n1", name := "n1", displayName := "n1", phase := .succeeded
    message := "", startedAt := some 0, finishedAt := some 1
    hostNodeName := "argo-run-a-n1", outputs := none }

/-- Decidable equality for `Except`, needed to evaluate `getWorkflow`
results on concrete inputs. -/
instance {ε α : Type} [DecidableEq ε] [DecidableEq α] :
    DecidableEq (Except ε α) := fun a b => by
  cases a with
  | error x =>
    cases b with
    | error y =>
      exact if h : x = y then isTrue (by rw [h])
        else isFalse (by intro hh; cases hh; exact h rfl)
    | ok y => exact isFalse (by intro hh; cases hh)
  | ok x =>
    cases b with
    | error y => exact isFalse (by intro hh; cases hh)
    | ok y =>
      exact if h : x = y then isTrue (by rw [h])
        else isFalse (by intro hh; cases hh; exact h rfl)

/-! ## Helper lemmas -/

theorem not_prefix_of_get_ne {α : Type} (p l ext : List α) (i : Nat)
    (hip : i < p.length) (hil : i < l.length)
    (hne : p.get ⟨i, hip⟩ ≠ l.get ⟨i, hil⟩) : ¬ p <+: (l ++ ext) := by
  induction p generalizing l i ext with
  | nil => cases hip
  | cons a p ih =>
    cases l with
    | nil => cases hil
    | cons b l =>
      intro hpre
      rw [List.cons_append, List.cons_prefix_cons] at hpre
      obtain ⟨hab, htail⟩ := hpre
      cases i with
      | zero => exact hne (by simpa using hab)
      | succ i =>
        exact ih l ext i (Nat.lt_of_succ_lt_succ hip) (Nat.lt_of_succ_lt_succ hil)
          (by simpa using hne) htail

theorem data_append3 (a b : String) : (a ++ b).data = a.data ++ b.data :=
  String.data_append a b

theorem envEntryFor_self (nm pre v : String) (hpre : (nm ++ "=").data = pre.data) :
    envEntryFor nm (pre ++ v) = true := by
  unfold envEntryFor
  rw [hpre, data_append3 pre v]
  rw [List.isPrefixOf_iff_prefix]
  exact List.prefix_append _ _

theorem envEntryFor_ne (nm pre v : String) (i : Nat)
    (hip : i < (nm ++ "=").data.length) (hil : i < pre.data.length)
    (hne : (nm ++ "=").data.get ⟨i, hip⟩ ≠ pre.data.get ⟨i, hil⟩) :
    envEntryFor nm (pre ++ v) = false := by
  unfold envEntryFor
  rw [data_append3 pre v]
  rw [Bool.eq_false_iff]
  intro hT
  rw [List.isPrefixOf_iff_prefix] at hT
  exact not_prefix_of_get_ne _ _ _ i hip hil hne hT

/-- Claim C8: for every unit of work, the environment list starts with
exactly the three injected identifiers (run name, node name, template name),
followed by the template-declared variables in document order, and the first
binding of each injected identifier in the list is the injected one — a
template-declared variable of the same name never overrides it. -/
theorem c8_env_vars (tmpl : Template) (wfName nodeName : String) :
    buildEnvVars tmpl wfName nodeName =
      ["ARGO_WORKFLOW_NAME=" ++ wfName,
       "ARGO_NODE_NAME=" ++ nodeName,
       "ARGO_TEMPLATE_NAME=" ++ tmpl.name] ++ declaredEnv tmpl ∧
    envFirst (buildEnvVars tmpl wfName nodeName) "ARGO_WORKFLOW_NAME" =
      some ("ARGO_WORKFLOW_NAME=" ++ wfName) ∧
    envFirst (buildEnvVars tmpl wfName nodeName) "ARGO_NODE_NAME" =
      some ("ARGO_NODE_NAME=" ++ nodeName) ∧
    envFirst (buildEnvVars tmpl wfName nodeName) "ARGO_TEMPLATE_NAME" =
      some ("ARGO_TEMPLATE_NAME=" ++ tmpl.name) := by
  have hshape : buildEnvVars tmpl wfName nodeName =
      ["ARGO_WORKFLOW_NAME=" ++ wfName,
       "ARGO_NODE_NAME=" ++ nodeName,
       "ARGO_TEMPLATE_NAME=" ++ tmpl.name] ++ declaredEnv tmpl := by
    cases hc : tmpl.container <;> cases hs : tmpl.script <;>
      simp [buildEnvVars, declaredEnv, hc, hs]
  have hWW : envEntryFor "ARGO_WORKFLOW_NAME" ("ARGO_WORKFLOW_NAME=" ++ wfName) = true :=
    envEntryFor_self _ _ _ (by decide)
  have hNN : envEntryFor "ARGO_NODE_NAME" ("ARGO_NODE_NAME=" ++ nodeName) = true :=
    envEntryFor_self _ _ _ (by decide)
  have hTT : envEntryFor "ARGO_TEMPLATE_NAME" ("ARGO_TEMPLATE_NAME=" ++ tmpl.name) = true :=
    envEntryFor_self _ _ _ (by decide)
  have hNW : envEntryFor "ARGO_NODE_NAME" ("ARGO_WORKFLOW_NAME=" ++ wfName) = false :=
    envEntryFor_ne _ _ _ 5 (by decide) (by decide) (by decide)
  have hTW : envEntryFor "ARGO_TEMPLATE_NAME" ("ARGO_WORKFLOW_NAME=" ++ wfName) = false :=
    envEntryFor_ne _ _ _ 5 (by decide) (by decide) (by decide)
  have hTN : envEntryFor "ARGO_TEMPLATE_NAME" ("ARGO_NODE_NAME=" ++ nodeName) = false :=
    envEntryFor_ne _ _ _ 5 (by decide) (by decide) (by decide)
  refine ⟨hshape, ?_, ?_, ?_⟩
  · rw [hshape]
    unfold envFirst
    rw [List.cons_append, List.find?_cons_of_pos _ hWW]
  · rw [hshape]
    unfold envFirst
    rw [List.cons_append, List.find?_cons_of_neg _ (by simp [hNW]),
        List.cons_append, List.find?_cons_of_pos _ hNN]
  · rw [hshape]
    unfold envFirst
    rw [List.cons_append, List.find?_cons_of_neg _ (by simp [hTW]),
        List.cons_append, List.find?_cons_of_neg _ (by simp [hTN]),
        List.cons_append, List.find?_cons_of_pos _ hTT]

/-- Claim C9 counterexample: the name normalization only replaces dots by
dashes, so the two distinct node names `a.b` and `a-b` of the same run
collide, and the bracket characters that step qualifiers introduce are not
replaced at all. -/
theorem c9_counterexample :
    containerName "run-a" "a.b" = containerName "run-a" "a-b" ∧
    ("a.b" : String) ≠ "a-b" ∧
    '[' ∈ (containerName "run-a" "main[0].hello").data := by
  refine ⟨by decide, by decide, by decide⟩

theorem sanitize_no_dot (d : List Char) :
    '.' ∉ d.map (fun c => if c = '.' then '-' else c) := by
  intro hmem
  simp only [List.mem_map] at hmem
  obtain ⟨c, _, hc⟩ := hmem
  by_cases h : c = '.' <;> simp [h] at hc

theorem sanitize_inj_dashless : ∀ (l1 l2 : List Char), '-' ∉ l1 → '-' ∉ l2 →
    l1.map (fun c => if c = '.' then '-' else c) =
      l2.map (fun c => if c = '.' then '-' else c) →
    l1 = l2 := by
  intro l1
  induction l1 with
  | nil =>
    intro l2 _ _ h
    cases l2 with
    | nil => rfl
    | cons b t => simp at h
  | cons a t ih =>
    intro l2 h1 h2 h
    cases l2 with
    | nil => simp at h
    | cons b t2 =>
      simp only [List.map_cons, List.cons.injEq] at h
      obtain ⟨hab, htail⟩ := h
      have ha : a ≠ '-' := fun hh => h1 (by simp [hh])
      have hb : b ≠ '-' := fun hh => h2 (by simp [hh])
      have hA : a = b := by
        by_cases hA : a = '.' <;> by_cases hB : b = '.' <;>
          simp [hA, hB] at hab <;> simp_all
      subst hA
      have ht : t = t2 :=
        ih t2 (fun hh => h1 (List.mem_cons_of_mem _ hh))
          (fun hh => h2 (List.mem_cons_of_mem _ hh)) htail
      rw [ht]

/-- Claim C9 (amended): the runtime unit's name is the deterministic
`argo-<runName>-<nodeName>` with every dot (and only dots) replaced by a
dash; the resulting names never contain a dot, and they are distinct for
distinct node names provided the node names contain no dash (in general,
dot/dash collisions are possible). -/
theorem c9_names :
    (∀ w n, '.' ∉ (containerName w n).data) ∧
    (∀ w n1 n2, '-' ∉ n1.data → '-' ∉ n2.data → n1 ≠ n2 →
      containerName w n1 ≠ containerName w n2) := by
  constructor
  · intro w n hmem
    exact sanitize_no_dot ("argo-" ++ w ++ "-" ++ n).data hmem
  · intro w n1 n2 h1 h2 hne heq
    apply hne
    unfold containerName sanitizeDots at heq
    injection heq with heq
    simp only [data_append3, List.map_append, List.append_assoc,
      List.append_right_inj] at heq
    exact congrArg String.mk (sanitize_inj_dashless n1.data n2.data h1 h2 heq)

/-- Claim C9 witness: the amended statement at concrete inputs. -/
theorem c9_names_witness :
    '.' ∉ (containerName "run-a" "whale").data ∧
    containerName "run-a" "whale" ≠ containerName "run-a" "other" :=
  ⟨c9_names.1 "run-a" "whale",
   c9_names.2 "run-a" "whale" "other" (by decide) (by decide) (by decide)⟩

theorem regFind_upsert_self : ∀ (m : List (String × Workflow)) (k : String) (v : Workflow),
    regFind (regUpsert m k v) k = some v := by
  intro m k v
  induction m with
  | nil => simp [regUpsert, regFind]
  | cons kv rest ih =>
    obtain ⟨k1, v1⟩ := kv
    by_cases h : k1 = k <;> simp [regUpsert, regFind, h, ih]

theorem regFind_upsert_other : ∀ (m : List (String × Workflow)) (k : String) (v : Workflow)
    (k2 : String), k2 ≠ k → regFind (regUpsert m k v) k2 = regFind m k2 := by
  intro m k v k2 hne
  have hne2 : k ≠ k2 := Ne.symm hne
  induction m with
  | nil => simp [regUpsert, regFind, hne2]
  | cons kv rest ih =>
    obtain ⟨k1, v1⟩ := kv
    by_cases h : k1 = k
    · subst h
      simp [regUpsert, regFind, hne2]
    · by_cases h2 : k1 = k2 <;> simp [regUpsert, regFind, h, h2, hne, hne2, ih]

theorem heap_read_alloc_lt (h : Heap) (m : NodesMap) (r : Nat)
    (hr : r < h.data.length) : (h.alloc m).1.read r = h.read r := by
  simp [Heap.alloc, Heap.read, List.getD_eq_getElem?_getD,
    List.getElem?_append_left hr]

theorem heap_read_alloc_of_read (h : Heap) (r : Nat) :
    (h.alloc (h.read r)).1.read r = h.read r := by
  rcases Nat.lt_or_ge r h.data.length with hr | hr
  · exact heap_read_alloc_lt h _ r hr
  · simp only [Heap.alloc, Heap.read, List.getD_eq_getElem?_getD]
    rw [List.getElem?_append_right hr]
    rw [List.getElem?_eq_none hr]
    rcases Nat.eq_or_lt_of_le hr with hr2 | hr2
    · simp [← hr2]
    · have : 1 ≤ r - h.data.length := by omega
      rcases Nat.exists_eq_add_of_le this with ⟨j, hj⟩
      simp [hj, Nat.add_comm 1 j]

theorem heap_read_write_self (h : Heap) (r : Nat) (m : NodesMap)
    (hr : r < h.data.length) : (h.write r m).read r = m := by
  simp [Heap.write, Heap.read, List.getD_eq_getElem?_getD,
    List.getElem?_set_self, hr]

/-- Claim C1 counterexample: submitting a second workflow under an
already-registered name does not fail with any error — in particular not
with `DuplicateRun` — and it replaces the previously registered run's
specification in the registry. -/
theorem c1_counterexample :
    (submitWorkflow ⟨[], ⟨[]⟩⟩ wfSubA 0).2 = none ∧
    (submitWorkflow (submitWorkflow ⟨[], ⟨[]⟩⟩ wfSubA 0).1 wfSubB 5).2 = none ∧
    (regFind (submitWorkflow (submitWorkflow ⟨[], ⟨[]⟩⟩ wfSubA 0).1 wfSubB 5).1.workflows
        "run-a").map Workflow.spec = some wfSubB.spec ∧
    wfSubB.spec ≠ wfSubA.spec := by
  decide

/-- Claim C1 (amended): Submit never fails — a submission whose name is
already registered silently replaces that registry entry instead of failing
with `DuplicateRun`.  A submission with an empty status phase is registered
in Pending phase with a start timestamp, becomes visible under its name
before any part of the walk runs (Submit returns with the walk still
pending), and no other registry entry or heap cell is touched. -/
theorem c1_submit (st : ControllerState) (wf : Workflow) (now : Nat)
    (hfresh : wf.status.phase = .unset) :
    (submitWorkflow st wf now).2 = none ∧
    regFind (submitWorkflow st wf now).1.workflows wf.name =
      some { wf with status :=
        { wf.status with phase := .pending, startedAt := some now } } ∧
    (∀ m, m ≠ wf.name →
      regFind (submitWorkflow st wf now).1.workflows m = regFind st.workflows m) ∧
    (submitWorkflow st wf now).1.heap = st.heap := by
  unfold submitWorkflow
  rw [if_pos hfresh]
  refine ⟨rfl, ?_, ?_, rfl⟩
  · exact regFind_upsert_self _ _ _
  · intro m hm
    exact regFind_upsert_other _ _ _ _ hm

/-- Claim C1 witness: the amended statement at a concrete fresh submission. -/
theorem c1_submit_witness :
    regFind (submitWorkflow ⟨[], ⟨[]⟩⟩ wfSubA 0).1.workflows "run-a" =
      some { wfSubA with status :=
        { wfSubA.status with phase := .pending, startedAt := some 0 } } :=
  (c1_submit ⟨[], ⟨[]⟩⟩ wfSubA 0 (by decide)).2.1

/-- Claim C2 counterexample: `GetWorkflow`'s returned value shares the live
node-status map with the stored run (the deep copy's fresh map is discarded
by the status overwrite), so a node-status write performed by the walk after
`Get` returned is observable through the previously returned snapshot. -/
theorem c2_counterexample :
    (getWorkflow stReg "run-a").1 = .ok wfReg ∧
    renderNodes stReg.heap wfReg.status = [] ∧
    renderNodes (updateNode stReg "run-a" nsDone).heap wfReg.status =
      [("n1", nsDone)] := by
  decide

/-- Claim C2 (amended): Get returns the stored run value itself — its scalar
status fields are a point-in-time copy, but its node-status mapping is the
live map reference, not an independent deep copy, so subsequent walk writes
to node statuses remain observable through the returned value.  The deep
copy only allocates (no existing heap cell changes), repeated Gets with no
intervening mutation return the identical snapshot with the identical
rendered node view, and a walk write to the run's map is exactly an upsert
visible through the snapshot. -/
theorem c2_get (st : ControllerState) (name : String) (wf : Workflow)
    (h : regFind st.workflows name = some wf) :
    (getWorkflow st name).1 = .ok wf ∧
    (∀ r, r < st.heap.data.length →
      (getWorkflow st name).2.read r = st.heap.read r) ∧
    (getWorkflow { st with heap := (getWorkflow st name).2 } name).1 = .ok wf ∧
    renderNodes (getWorkflow st name).2 wf.status = renderNodes st.heap wf.status ∧
    (∀ r ns, wf.status.nodes = some r → r < st.heap.data.length →
      renderNodes (updateNode st name ns).heap wf.status =
        upsert (renderNodes st.heap wf.status) ns.id ns) := by
  have hfst : ∀ hp : Heap, (getWorkflow { st with heap := hp } name).1 = .ok wf := by
    intro hp
    unfold getWorkflow
    simp only [h]
  have hsnd : (getWorkflow st name).2 =
      (deepCopyStatus st.heap wf.status).2 := by
    unfold getWorkflow
    simp only [h]
  refine ⟨?_, ?_, ?_, ?_, ?_⟩
  · have := hfst st.heap
    simpa using this
  · intro r hr
    rw [hsnd]
    rcases hn : wf.status.nodes with _ | r2
    · simp [deepCopyStatus, hn]
    · simp only [deepCopyStatus, hn]
      exact heap_read_alloc_lt _ _ _ hr
  · exact hfst _
  · rw [hsnd]
    rcases hn : wf.status.nodes with _ | r2
    · simp [renderNodes, deepCopyStatus, hn]
    · simp only [renderNodes, deepCopyStatus, hn]
      exact heap_read_alloc_of_read st.heap r2
  · intro r ns hn hr
    unfold updateNode
    simp only [h, hn]
    simp only [renderNodes, hn]
    exact heap_read_write_self st.heap r _ hr

/-- Claim C2 witness: the amended statement at the concrete registered run. -/
theorem c2_get_witness :
    (getWorkflow stReg "run-a").1 = .ok wfReg ∧
    renderNodes (getWorkflow stReg "run-a").2 wfReg.status =
      renderNodes stReg.heap wfReg.status :=
  ⟨(c2_get stReg "run-a" wfReg (by decide)).1,
   (c2_get stReg "run-a" wfReg (by decide)).2.2.2.1⟩

/-- Claim C3 counterexample: when the wait operation errors, the adapter
returns at once — the runtime unit that was created and started is never
removed on that path. -/
theorem c3_counterexample :
    oWaitBoom.createErr = none ∧ oWaitBoom.startErr = none ∧
    (executeContainer (fun s => s) oWaitBoom "n1" tmplWhale "run-a").removeCalled
      = false := by
  decide

/-- Claim C3 (amended): for both adapters, every exit-code outcome (zero or
not) force-destroys the runtime unit before returning, and the outcome of
the destruction call never influences the returned node status or error; on
a wait error, however, the adapter returns without destroying the unit. -/
theorem c3_cleanup (nid : String → String) (o : RuntimeOutcome) (n wfName : String)
    (tmplC tmplS : Template) (c : ContainerSpec) (sS : ScriptSpec)
    (hc : tmplC.container = some c)
    (hs : tmplS.script = some sS) (hcmd : sS.command ≠ [])
    (hcr : o.createErr = none) (hst : o.startErr = none) :
    (∀ code : Int, o.wait = .exited code →
      (executeContainer nid o n tmplC wfName).removeCalled = true ∧
      ∃ r, executeScript nid o n tmplS wfName = some r ∧ r.removeCalled = true) ∧
    (∀ e, o.wait = .waitErr e →
      (executeContainer nid o n tmplC wfName).removeCalled = false ∧
      ∃ r, executeScript nid o n tmplS wfName = some r ∧ r.removeCalled = false) ∧
    (∀ e1 e2 : Option String,
      executeContainer nid { o with removeErr := e1 } n tmplC wfName =
        executeContainer nid { o with removeErr := e2 } n tmplC wfName ∧
      executeScript nid { o with removeErr := e1 } n tmplS wfName =
        executeScript nid { o with removeErr := e2 } n tmplS wfName) := by
  obtain ⟨c0, cmdRest, hcl⟩ : ∃ c0 rest, sS.command = c0 :: rest := by
    cases hcl : sS.command with
    | nil => exact absurd hcl hcmd
    | cons a b => exact ⟨a, b, rfl⟩
  refine ⟨?_, ?_, ?_⟩
  · intro code hw
    constructor
    · rcases hl : o.logs with el | lg <;>
        simp [executeContainer, awaitAndCollect, hc, hcr, hst, hw, hl]
    · rcases hl : o.logs with el | lg <;>
        simp [executeScript, scriptCmd, awaitAndCollect, hs, hcl, hcr, hst, hw, hl]
  · intro e hw
    constructor
    · simp [executeContainer, awaitAndCollect, hc, hcr, hst, hw]
    · simp [executeScript, scriptCmd, awaitAndCollect, hs, hcl, hcr, hst, hw]
  · intro e1 e2
    exact ⟨rfl, rfl⟩

/-- Claim C3 witness: the amended statement at a concrete run: exit code 0
destroys the unit; a wait error does not. -/
theorem c3_cleanup_witness :
    (executeContainer (fun s => s) oExitOK "n1" tmplWhale "run-a").removeCalled
        = true ∧
    (executeContainer (fun s => s) oWaitBoom "n1" tmplWhale "run-a").removeCalled
        = false :=
  ⟨((c3_cleanup (fun s => s) oExitOK "n1" "run-a" tmplWhale tmplScriptPy
      whaleC ⟨"python:alpine", ["python"], "print(1)", "", []⟩
      (by decide) (by decide) (by decide) (by decide) (by decide)).1 0 (by decide)).1,
   ((c3_cleanup (fun s => s) oWaitBoom "n1" "run-a" tmplWhale tmplScriptPy
      whaleC ⟨"python:alpine", ["python"], "print(1)", "", []⟩
      (by decide) (by decide) (by decide) (by decide) (by decide)).2.1 "wait failed"
      (by decide)).1⟩

/-- Claim C4 counterexample: on a wait error the adapter does return both an
error and a populated Error-phase node status, but the orchestrator's
`executeContainerTemplate` returns the error immediately and never writes
that node status into the node-status mapping. -/
theorem c4_counterexample :
    (executeContainer (fun s => s) oWaitBoom "n1" tmplWhale "run-a").err =
      some "wait failed" ∧
    ((executeContainer (fun s => s) oWaitBoom "n1" tmplWhale "run-a").node.map
      NodeStatus.phase) = some NodePhase.error ∧
    executeContainerTemplate (fun s => s) oWaitBoom "n1" tmplWhale "run-a" [] =
      ([], some "wait failed") := by
  decide

/-- Claim C4 (amended): when the wait operation fails, the adapter returns
both the error and a populated node status with phase Error and message
equal to the underlying error text — but the orchestrator propagates the
error upward without writing that node status into the run's node-status
mapping (the mapping is returned unchanged). -/
theorem c4_node_error (nid : String → String) (o : RuntimeOutcome)
    (n wfName : String) (tmpl : Template) (c : ContainerSpec)
    (nodes : NodesMap) (e : String)
    (hc : tmpl.container = some c) (hcr : o.createErr = none)
    (hst : o.startErr = none) (hw : o.wait = .waitErr e) :
    (executeContainer nid o n tmpl wfName).node = some
      { id := nid n, name := n, displayName := n, phase := .error, message := e
        startedAt := some o.startTime, finishedAt := none
        hostNodeName := containerName wfName n, outputs := none } ∧
    (executeContainer nid o n tmpl wfName).err = some e ∧
    executeContainerTemplate nid o n tmpl wfName nodes = (nodes, some e) := by
  refine ⟨?_, ?_, ?_⟩
  · simp [executeContainer, awaitAndCollect, hc, hcr, hst, hw]
  · simp [executeContainer, awaitAndCollect, hc, hcr, hst, hw]
  · simp [executeContainerTemplate, executeContainer, awaitAndCollect,
      hc, hcr, hst, hw]

/-- Claim C4 witness: the amended statement at the concrete wait failure. -/
theorem c4_node_error_witness :
    executeContainerTemplate (fun s => s) oWaitBoom "n1" tmplWhale "run-a" [] =
      ([], some "wait failed") :=
  (c4_node_error (fun s => s) oWaitBoom "n1" "run-a" tmplWhale whaleC [] "wait failed"
    (by decide) (by decide) (by decide) (by decide)).2.2

/-- Claim C5 counterexample: a non-zero exit code yields phase Failed, but
the recorded message is `"container exited with code 1"` (or `"script
exited with code 1"`), not the claimed exact string `"exited with code 1"`. -/
theorem c5_counterexample :
    ((executeContainer (fun s => s) oExitFail "n1" tmplWhale "run-a").node.map
      NodeStatus.phase) = some NodePhase.failed ∧
    ((executeContainer (fun s => s) oExitFail "n1" tmplWhale "run-a").node.map
      NodeStatus.message) = some "container exited with code 1" ∧
    "container exited with code 1" ≠ "exited with code 1" := by
  decide

/-- Claim C5 (amended): exit code 0 yields phase Succeeded with an empty
message; a non-zero exit code N yields phase Failed with message
`"container exited with code N"` for container templates and
`"script exited with code N"` for script templates — each containing the
exact text `"exited with code N"`. -/
theorem c5_exit_mapping (nid : String → String) (o : RuntimeOutcome)
    (n wfName : String) (tmplC tmplS : Template) (c : ContainerSpec)
    (sS : ScriptSpec) (code : Int)
    (hc : tmplC.container = some c)
    (hs : tmplS.script = some sS) (hcmd : sS.command ≠ [])
    (hcr : o.createErr = none) (hst : o.startErr = none)
    (hw : o.wait = .exited code) :
    (code = 0 →
      (executeContainer nid o n tmplC wfName).node.map NodeStatus.phase =
        some .succeeded ∧
      (executeContainer nid o n tmplC wfName).node.map NodeStatus.message =
        some "" ∧
      ∃ r, executeScript nid o n tmplS wfName = some r ∧
        r.node.map NodeStatus.phase = some .succeeded ∧
        r.node.map NodeStatus.message = some "") ∧
    (code ≠ 0 →
      (executeContainer nid o n tmplC wfName).node.map NodeStatus.phase =
        some .failed ∧
      (executeContainer nid o n tmplC wfName).node.map NodeStatus.message =
        some ("container exited with code " ++ toString code) ∧
      strContains ("container exited with code " ++ toString code)
        ("exited with code " ++ toString code) ∧
      ∃ r, executeScript nid o n tmplS wfName = some r ∧
        r.node.map NodeStatus.phase = some .failed ∧
        r.node.map NodeStatus.message =
          some ("script exited with code " ++ toString code) ∧
        strContains ("script exited with code " ++ toString code)
          ("exited with code " ++ toString code)) := by
  obtain ⟨c0, cmdRest, hcl⟩ : ∃ c0 rest, sS.command = c0 :: rest := by
    cases hcl : sS.command with
    | nil => exact absurd hcl hcmd
    | cons a b => exact ⟨a, b, rfl⟩
  have hcontC : strContains ("container exited with code " ++ toString code)
      ("exited with code " ++ toString code) := by
    refine ⟨"container ", "", ?_⟩
    rw [String.append_empty, ← String.append_assoc]
    have : ("container " ++ "exited with code " : String) =
        "container exited with code " := by decide
    rw [this]
  have hcontS : strContains ("script exited with code " ++ toString code)
      ("exited with code " ++ toString code) := by
    refine ⟨"script ", "", ?_⟩
    rw [String.append_empty, ← String.append_assoc]
    have : ("script " ++ "exited with code " : String) =
        "script exited with code " := by decide
    rw [this]
  constructor
  · intro h0
    refine ⟨?_, ?_, ?_⟩
    · rcases hl : o.logs with el | lg <;>
        simp [executeContainer, awaitAndCollect, hc, hcr, hst, hw, hl, h0]
    · rcases hl : o.logs with el | lg <;>
        simp [executeContainer, awaitAndCollect, hc, hcr, hst, hw, hl, h0]
    · rcases hl : o.logs with el | lg <;>
        simp [executeScript, scriptCmd, awaitAndCollect, hs, hcl, hcr, hst, hw, hl, h0]
  · intro hne
    refine ⟨?_, ?_, hcontC, ?_⟩
    · rcases hl : o.logs with el | lg <;>
        simp [executeContainer, awaitAndCollect, hc, hcr, hst, hw, hl, hne]
    · rcases hl : o.logs with el | lg <;>
        simp [executeContainer, awaitAndCollect, hc, hcr, hst, hw, hl, hne]
    · rcases hl : o.logs with el | lg <;>
        simp [executeScript, scriptCmd, awaitAndCollect, hs, hcl, hcr, hst, hw, hl,
          hne, hcontS]

/-- Claim C5 witness: the amended statement at exit code 1. -/
theorem c5_exit_mapping_witness :
    (executeContainer (fun s => s) oExitFail "n1" tmplWhale "run-a").node.map
        NodeStatus.message = some ("container exited with code " ++ toString (1 : Int)) :=
  ((c5_exit_mapping (fun s => s) oExitFail "n1" "run-a" tmplWhale tmplScriptPy
      whaleC ⟨"python:alpine", ["python"], "print(1)", "", []⟩ 1
      (by decide) (by decide) (by decide) (by decide) (by decide) (by decide)).2
    (by decide)).2.1

/-- Claim C10: for a script template, the adapter indexes `Command[0]`
unconditionally, so it panics (returns no result at all) exactly when the
command list is empty; the same panic propagates through the orchestrator's
script case. -/
theorem c10_script_panic (nid : String → String) (o : RuntimeOutcome)
    (nodeName wfName : String) (tmpl : Template) (s : ScriptSpec)
    (nodes : NodesMap) (hs : tmpl.script = some s) :
    (executeScript nid o nodeName tmpl wfName = none ↔ s.command = []) ∧
    (executeScriptTemplate nid o nodeName tmpl wfName nodes = none ↔ s.command = []) := by
  have hmain : executeScript nid o nodeName tmpl wfName = none ↔ s.command = [] := by
    unfold executeScript
    rw [hs]
    cases hcmd : s.command with
    | nil => simp [scriptCmd, hcmd]
    | cons c0 rest => simp [scriptCmd, hcmd]
  refine ⟨hmain, ?_⟩
  unfold executeScriptTemplate
  cases hx : executeScript nid o nodeName tmpl wfName with
  | none => simpa [hx] using hmain
  | some r => simp only [hx] at hmain ⊢; simpa using hmain

/-! ### Interleaving and trace lemmas for the steps/DAG claims -/

theorem merge_nil_left : ∀ (r : List Event), Merge [] r r := by
  intro r
  induction r with
  | nil => exact Merge.nil
  | cons a t ih => exact Merge.consRight a ih

theorem merge_nil_right : ∀ (l : List Event), Merge l [] l := by
  intro l
  induction l with
  | nil => exact Merge.nil
  | cons a t ih => exact Merge.consLeft a ih

theorem merge_append : ∀ (l r : List Event), Merge l r (l ++ r) := by
  intro l r
  induction l with
  | nil => simpa using merge_nil_left r
  | cons a t ih => exact Merge.consLeft a ih

theorem merge_mem {l r u : List Event} (h : Merge l r u) :
    ∀ e, e ∈ u ↔ e ∈ l ∨ e ∈ r := by
  induction h with
  | nil => simp
  | consLeft a hm ih => intro e; simp [List.mem_cons, ih e]; tauto
  | consRight a hm ih => intro e; simp [List.mem_cons, ih e]; tauto

theorem mergeAll_mem {ts : List (List Event)} {u : List Event} (h : MergeAll ts u) :
    ∀ e, e ∈ u ↔ ∃ t, t ∈ ts ∧ e ∈ t := by
  induction h with
  | nil => simp
  | cons hall hm ih =>
    intro e
    rw [merge_mem hm e]
    simp only [List.mem_cons]
    constructor
    · rintro (he | he)
      · exact ⟨_, Or.inl rfl, he⟩
      · obtain ⟨t2, ht2, he2⟩ := (ih e).mp he
        exact ⟨t2, Or.inr ht2, he2⟩
    · rintro ⟨t2, (rfl | ht2), he2⟩
      · exact Or.inl he2
      · exact Or.inr ((ih e).mpr ⟨t2, ht2, he2⟩)

theorem goodTrace_nil : goodTrace [] := by
  constructor
  · intro nm h
    cases h
  · intro nm ph h
    cases h

theorem goodTrace_append {a b : List Event} (ha : goodTrace a) (hb : goodTrace b) :
    goodTrace (a ++ b) := by
  constructor
  · intro nm hmem
    rcases List.mem_append.mp hmem with h | h
    · obtain ⟨ph, hph⟩ := ha.1 nm h
      exact ⟨ph, List.mem_append.mpr (Or.inl hph)⟩
    · obtain ⟨ph, hph⟩ := hb.1 nm h
      exact ⟨ph, List.mem_append.mpr (Or.inr hph)⟩
  · intro nm ph hmem
    rcases List.mem_append.mp hmem with h | h
    · exact ha.2 nm ph h
    · exact hb.2 nm ph h

theorem goodTrace_merge {l r u : List Event} (h : Merge l r u)
    (hl : goodTrace l) (hr : goodTrace r) : goodTrace u := by
  constructor
  · intro nm hmem
    rcases (merge_mem h _).mp hmem with h2 | h2
    · obtain ⟨ph, hph⟩ := hl.1 nm h2
      exact ⟨ph, (merge_mem h _).mpr (Or.inl hph)⟩
    · obtain ⟨ph, hph⟩ := hr.1 nm h2
      exact ⟨ph, (merge_mem h _).mpr (Or.inr hph)⟩
  · intro nm ph hmem
    rcases (merge_mem h _).mp hmem with h2 | h2
    · exact hl.2 nm ph h2
    · exact hr.2 nm ph h2

theorem goodTrace_mergeAll {ts : List (List Event)} {u : List Event}
    (h : MergeAll ts u) (hts : ∀ t ∈ ts, goodTrace t) : goodTrace u := by
  constructor
  · intro nm hmem
    obtain ⟨t, ht, he⟩ := (mergeAll_mem h _).mp hmem
    obtain ⟨ph, hph⟩ := (hts t ht).1 nm he
    exact ⟨ph, (mergeAll_mem h _).mpr ⟨t, ht, hph⟩⟩
  · intro nm ph hmem
    obtain ⟨t, ht, he⟩ := (mergeAll_mem h _).mp hmem
    exact (hts t ht).2 nm ph he

theorem adapterEvents_good (nodeName : String) (r : AdapterResult)
    (h : ∀ ns, r.node = some ns → ns.phase ≠ NodePhase.running) :
    goodTrace (adapterEvents nodeName r) := by
  cases hn : r.node with
  | none => simpa [adapterEvents, hn] using goodTrace_nil
  | some ns =>
    constructor
    · intro nm hmem
      simp only [adapterEvents, hn, List.mem_cons, List.mem_singleton] at hmem
      rcases hmem with h1 | h1 | h1
      · cases h1
        exact ⟨ns.phase, by simp [adapterEvents, hn]⟩
      · cases h1
      · cases h1
    · intro nm ph hmem
      simp only [adapterEvents, hn, List.mem_cons, List.mem_singleton] at hmem
      rcases hmem with h1 | h1 | h1
      · cases h1
      · cases h1
        exact h ns hn
      · cases h1

theorem awaitAndCollect_terminal (o : RuntimeOutcome) (ns0 : NodeStatus)
    (mk : String) (hwb : o.wait ≠ WaitResult.errNil) :
    ∀ ns, (awaitAndCollect o ns0 mk).node = some ns →
      ns.phase ≠ NodePhase.running := by
  intro ns hns
  unfold awaitAndCollect at hns
  rcases hw : o.wait with _ | e3 | code
  · exact absurd hw hwb
  · simp only [hw] at hns
    simp at hns
    rw [← hns]
    simp
  · simp only [hw] at hns
    rcases hl : o.logs with el | lgs <;> simp only [hl] at hns <;>
      by_cases hcode : code = 0 <;>
        simp [hcode] at hns <;>
          rw [← hns] <;>
            simp

theorem executeContainer_terminal (nid : String → String) (o : RuntimeOutcome)
    (n : String) (tmpl : Template) (w : String)
    (hwb : o.wait ≠ WaitResult.errNil) :
    ∀ ns, (executeContainer nid o n tmpl w).node = some ns →
      ns.phase ≠ NodePhase.running := by
  intro ns hns
  unfold executeContainer at hns
  rcases hc : tmpl.container with _ | c
  · simp only [hc] at hns
    simp at hns
  · simp only [hc] at hns
    rcases hcr : o.createErr with _ | e1
    · simp only [hcr] at hns
      rcases hst : o.startErr with _ | e2
      · simp only [hst] at hns
        exact awaitAndCollect_terminal o _ _ hwb ns hns
      · simp only [hst] at hns
        simp at hns
    · simp only [hcr] at hns
      simp at hns

theorem executeScript_terminal (nid : String → String) (o : RuntimeOutcome)
    (n : String) (tmpl : Template) (w : String) (r : AdapterResult)
    (hwb : o.wait ≠ WaitResult.errNil)
    (hr : executeScript nid o n tmpl w = some r) :
    ∀ ns, r.node = some ns → ns.phase ≠ NodePhase.running := by
  intro ns hns
  unfold executeScript at hr
  rcases hsc : tmpl.script with _ | s
  · simp only [hsc] at hr
    simp at hr
    rw [← hr] at hns
    simp at hns
  · simp only [hsc] at hr
    rcases hcl : s.command with _ | ⟨c0, cmdRest⟩ <;>
      simp only [scriptCmd, hcl] at hr
    · simp at hr
    · rcases hcr : o.createErr with _ | e1
      · simp only [hcr] at hr
        rcases hst : o.startErr with _ | e2
        · simp only [hst] at hr
          simp at hr
          rw [← hr] at hns
          exact awaitAndCollect_terminal o _ _ hwb ns hns
        · simp only [hst] at hr
          simp at hr
          rw [← hr] at hns
          simp at hns
      · simp only [hcr] at hr
        simp at hr
        rw [← hr] at hns
        simp at hns

/-- Any trace of the walk is well-formed: every node that starts also
finishes (no sibling is cancelled or skipped mid-flight), and every finish
carries a terminal phase — provided the runtime's wait channel never
delivers a nil error (the degenerate `errNil` branch of the Go `select`). -/
theorem execT_good (E : ExecEnv)
    (hwb : ∀ m, (E.o m).wait ≠ WaitResult.errNil)
    {n : String} {tmpl : Template} {trace : List Event} {res : Option String}
    (h : ExecT E n tmpl trace res) : goodTrace trace := by
  refine @ExecT.rec E
    (fun _ _ trace _ _ => goodTrace trace)
    (fun _ _ _ trace _ _ => goodTrace trace)
    (fun _ _ _ traces _ _ => ∀ t ∈ traces, goodTrace t)
    (fun _ _ traces _ _ => ∀ t ∈ traces, goodTrace t)
    ?_ ?_ ?_ ?_ ?_ ?_ ?_ ?_ ?_ ?_ ?_ ?_ ?_ ?_ n tmpl trace res h
  · intro n2 tmpl2 c hc
    exact adapterEvents_good n2 _
      (executeContainer_terminal E.nid (E.o n2) n2 tmpl2 E.wfName (hwb n2))
  · intro n2 tmpl2 s r hc hs hr
    exact adapterEvents_good n2 _
      (executeScript_terminal E.nid (E.o n2) n2 tmpl2 E.wfName r (hwb n2) hr)
  · intro n2 tmpl2 groups trace2 res2 hc hs hst hg ih
    exact ih
  · intro n2 tmpl2 d traces errs trace2 res2 hc hs hst hd ht hm hres ih
    exact goodTrace_mergeAll hm ih
  · intro n2 tmpl2 hc hs hst hd
    exact goodTrace_nil
  · intro n2 i
    exact goodTrace_nil
  · intro n2 g rest i traces gtrace resttrace res2 hg hm hrest ih3 ih2
    exact goodTrace_append (goodTrace_mergeAll hm ih3) ih2
  · intro n2 g rest i traces errs gtrace e hg hm he ih3
    exact goodTrace_mergeAll hm ih3
  · intro n2 i t ht
    cases ht
  · intro n2 i s rest traces errs hnf hg ih t ht
    rcases List.mem_cons.mp ht with rfl | ht2
    · exact goodTrace_nil
    · exact ih t ht2
  · intro n2 i s rest tmpl2 trace2 res2 traces errs hf hx hg ih1 ih3 t ht
    rcases List.mem_cons.mp ht with rfl | ht2
    · exact ih1
    · exact ih3 t ht2
  · intro n2 t ht
    cases ht
  · intro n2 t rest traces errs hnf hg ih u hu
    rcases List.mem_cons.mp hu with rfl | hu2
    · exact goodTrace_nil
    · exact ih u hu2
  · intro n2 t rest tmpl2 trace2 res2 traces errs hf hx hg ih1 ih4 u hu
    rcases List.mem_cons.mp hu with rfl | hu2
    · exact ih1
    · exact ih4 u hu2

theorem flatten_get_decomp {α : Type} : ∀ (ls : List (List α)) (i : Nat)
    (hi : i < ls.length), ∃ a b, ls.flatten = a ++ ls.get ⟨i, hi⟩ ++ b := by
  intro ls
  induction ls with
  | nil =>
    intro i hi
    simp at hi
  | cons x rest ih =>
    intro i hi
    cases i with
    | zero => exact ⟨[], rest.flatten, by simp⟩
    | succ j =>
      obtain ⟨a, b, hab⟩ := ih j (Nat.lt_of_succ_lt_succ hi)
      refine ⟨x ++ a, b, ?_⟩
      simp [hab]

theorem flatten_take_decomp {α : Type} : ∀ (ls : List (List α)) (i : Nat)
    (hi : i < ls.length), ∃ a, (ls.take (i + 1)).flatten = a ++ ls.get ⟨i, hi⟩ := by
  intro ls
  induction ls with
  | nil =>
    intro i hi
    simp at hi
  | cons x rest ih =>
    intro i hi
    cases i with
    | zero => exact ⟨[], by simp⟩
    | succ j =>
      obtain ⟨a, hab⟩ := ih j (Nat.lt_of_succ_lt_succ hi)
      refine ⟨x ++ a, ?_⟩
      simp [hab]

theorem flatten_barrier {α : Type} : ∀ (gts : List (List α)) (i j : Nat)
    (hi : i < gts.length) (hj : j < gts.length), i < j →
    ∃ pre post, gts.flatten = pre ++ post ∧
      (∃ a, pre = a ++ gts.get ⟨i, hi⟩) ∧
      (∃ a b, post = a ++ gts.get ⟨j, hj⟩ ++ b) := by
  intro gts
  induction gts with
  | nil =>
    intro i j hi hj hij
    simp at hi
  | cons x rest ih =>
    intro i j hi hj hij
    cases i with
    | zero =>
      cases j with
      | zero => omega
      | succ j2 =>
        obtain ⟨a, b, hab⟩ := flatten_get_decomp rest j2 (by simpa using hj)
        refine ⟨x, rest.flatten, by simp, ⟨[], by simp⟩, ⟨a, b, ?_⟩⟩
        rw [hab]
        rfl
    | succ i2 =>
      cases j with
      | zero => omega
      | succ j2 =>
        obtain ⟨pre2, post2, hsp, ⟨a1, ha1⟩, hpj⟩ :=
          ih i2 j2 (by simpa using hi) (by simpa using hj) (by omega)
        refine ⟨x ++ pre2, post2, ?_, ⟨x ++ a1, ?_⟩, hpj⟩
        · simp [hsp]
        · simp [ha1]

theorem get_cons_of_pos {α : Type} (x : α) (l : List α) (i : Nat)
    (hpos : 0 < i) (h : i < l.length + 1) :
    (x :: l).get ⟨i, by simpa using h⟩ = l.get ⟨i - 1, by omega⟩ := by
  cases i with
  | zero => omega
  | succ j => rfl

/-- Every execution of a step-group list decomposes into the spec's
barrier/aggregation shape, starting at any group index. -/
theorem execGroups_claim (E : ExecEnv) (n : String) :
    ∀ (groups : List ParallelSteps) (i0 : Nat) (trace : List Event)
    (res : Option String),
    ExecGroups E n groups i0 trace res → StepsClaimFrom E n i0 groups trace res := by
  intro groups
  induction groups with
  | nil =>
    intro i0 trace res h
    cases h
    refine ⟨[], [], [], [], rfl, rfl, rfl, rfl, ?_, ?_, ?_, ?_, ?_⟩
    · intro i hi
      simp at hi
    · intro i j hi hj hij
      simp at hi
    · intro i hi
      simp at hi
    · intro _
      exact ⟨rfl, fun i hi => by simp at hi⟩
    · intro e he
      cases he
  | cons g rest0 ih =>
    intro i0 trace res h
    cases h with
    | consOk =>
      rename_i traces gtrace resttrace hm hg hrest
      obtain ⟨executed2, rest2, gts2, errss2, hsplit, hlen1, hlen2, htr,
        hper, hbar, hpre, hnone, herr⟩ := ih (i0 + 1) resttrace res hrest
      have htrace : gtrace ++ resttrace = ((gtrace :: gts2) : List (List Event)).flatten := by
        simp [htr]
      refine ⟨g :: executed2, rest2, gtrace :: gts2, [] :: errss2, ?_, ?_, ?_, htrace,
        ?_, ?_, ?_, ?_, ?_⟩
      · simp [hsplit]
      · simp [hlen1]
      · simp [hlen2]
      · intro i hi hg2 he2
        cases i with
        | zero => exact ⟨traces, hg, hm⟩
        | succ i2 =>
          obtain ⟨traces2, hgr, hmr⟩ := hper i2 (by simpa using hi)
            (by simpa using hg2) (by simpa using he2)
          have harith : (i0 + 1) + i2 = i0 + (i2 + 1) := by omega
          exact ⟨traces2, harith ▸ hgr, hmr⟩
      · intro i j hi hj hij
        obtain ⟨pre, post, hsp, hpi, hpj⟩ :=
          flatten_barrier (gtrace :: gts2) i j hi hj hij
        exact ⟨pre, post, htrace ▸ hsp, hpi, hpj⟩
      · intro i hi hnext
        cases i with
        | zero => rfl
        | succ i2 =>
          exact hpre i2 (by simpa using hi) (by simpa using hnext)
      · intro hres
        obtain ⟨hrest2, hall⟩ := hnone hres
        refine ⟨hrest2, ?_⟩
        intro i hi
        cases i with
        | zero => rfl
        | succ i2 => exact hall i2 (by simpa using hi)
      · intro e he
        obtain ⟨hk, hmem⟩ := herr e he
        have hklen : 0 < errss2.length := hk
        refine ⟨by simp, ?_⟩
        have hgc := get_cons_of_pos ([] : List String) errss2
          (([] :: errss2).length - 1) (by simp; omega) (by simp)
        rw [hgc]
        have : ([] :: errss2 : List (List String)).length - 1 - 1 = errss2.length - 1 := by
          simp
        exact hmem
    | consErrCase =>
      rename_i traces errs e he hg hm
      have htrace : trace = ([trace] : List (List Event)).flatten := by simp
      refine ⟨[g], rest0, [trace], [errs], rfl, rfl, rfl, htrace, ?_, ?_, ?_, ?_, ?_⟩
      · intro i hi hg2 he2
        cases i with
        | zero => exact ⟨traces, hg, hm⟩
        | succ i2 => simp at hi
      · intro i j hi hj hij
        simp at hi hj
        omega
      · intro i hi hnext
        simp at hnext
      · intro hres
        cases hres
      · intro e2 he2
        cases he2
        exact ⟨by simp, he⟩

/-- Claim C6: within a step-list template, groups run as a strict barrier
sequence — the trace is a concatenation of per-group segments (group i+1
never contributes an event before all of group i's events, including every
sibling's completion); every executed group runs each of its steps to
completion even when some fail (every started node finishes, with a terminal
phase); a propagated error is a real error collected in the last executed
group; and the remaining groups are skipped. -/
theorem c6_steps_barrier (E : ExecEnv)
    (hwb : ∀ m, (E.o m).wait ≠ WaitResult.errNil)
    (n : String) (tmpl : Template) (groups : List ParallelSteps)
    (trace : List Event) (res : Option String)
    (hc : tmpl.container = none) (hs : tmpl.script = none)
    (hst : tmpl.steps = some groups)
    (h : ExecT E n tmpl trace res) :
    StepsClaimFrom E n 0 groups trace res ∧ goodTrace trace := by
  have hgood := execT_good E hwb h
  refine ⟨?_, hgood⟩
  cases h with
  | container =>
    rename_i c hc2
    rw [hc] at hc2
    cases hc2
  | script =>
    rename_i s r hc2 hs2 hr
    rw [hs] at hs2
    cases hs2
  | steps =>
    rename_i groups2 hc2 hs2 hst2 hg
    rw [hst] at hst2
    injection hst2 with hgg
    subst hgg
    exact execGroups_claim E n groups 0 trace res hg
  | dag =>
    rename_i d2 traces2 errs2 ht2 hc2 hs2 hst2 hd2 hm2 hres2
    rw [hst] at hst2
    cases hst2
  | unsupported =>
    rename_i hc2 hs2 hst2 hd2
    rw [hst] at hst2
    cases hst2

/-- Claim C6 witness: a two-group step list over the `whale` template, one
step per group, with every wait exiting 0. -/
theorem c6_steps_barrier_witness :
    StepsClaimFrom envOK "main" 0 [⟨[⟨"s1", "whale"⟩]⟩, ⟨[⟨"s2", "whale"⟩]⟩]
      [.nodeStart "main[0].s1", .nodeFinish "main[0].s1" .succeeded,
       .nodeStart "main[1].s2", .nodeFinish "main[1].s2" .succeeded] none ∧
    goodTrace
      [.nodeStart "main[0].s1", .nodeFinish "main[0].s1" .succeeded,
       .nodeStart "main[1].s2", .nodeFinish "main[1].s2" .succeeded] := by
  have hx1 : ExecT envOK "main[0].s1" tmplWhale
      [.nodeStart "main[0].s1", .nodeFinish "main[0].s1" .succeeded] none :=
    ExecT.container "main[0].s1" tmplWhale whaleC rfl
  have hx2 : ExecT envOK "main[1].s2" tmplWhale
      [.nodeStart "main[1].s2", .nodeFinish "main[1].s2" .succeeded] none :=
    ExecT.container "main[1].s2" tmplWhale whaleC rfl
  have hg1 : ExecGroup envOK "main" 0 [⟨"s1", "whale"⟩]
      [[.nodeStart "main[0].s1", .nodeFinish "main[0].s1" .succeeded]] [] :=
    ExecGroup.consFound "main" 0 ⟨"s1", "whale"⟩ [] tmplWhale
      (rfl : findTemplate envOK.templates "whale" = some tmplWhale) hx1
      (ExecGroup.nil "main" 0)
  have hg2 : ExecGroup envOK "main" 1 [⟨"s2", "whale"⟩]
      [[.nodeStart "main[1].s2", .nodeFinish "main[1].s2" .succeeded]] [] :=
    ExecGroup.consFound "main" 1 ⟨"s2", "whale"⟩ [] tmplWhale
      (rfl : findTemplate envOK.templates "whale" = some tmplWhale) hx2
      (ExecGroup.nil "main" 1)
  have hm1 : MergeAll [[.nodeStart "main[0].s1", .nodeFinish "main[0].s1" .succeeded]]
      [.nodeStart "main[0].s1", .nodeFinish "main[0].s1" .succeeded] :=
    MergeAll.cons MergeAll.nil (merge_nil_right _)
  have hm2 : MergeAll [[.nodeStart "main[1].s2", .nodeFinish "main[1].s2" .succeeded]]
      [.nodeStart "main[1].s2", .nodeFinish "main[1].s2" .succeeded] :=
    MergeAll.cons MergeAll.nil (merge_nil_right _)
  have hgs : ExecGroups envOK "main" [⟨[⟨"s1", "whale"⟩]⟩, ⟨[⟨"s2", "whale"⟩]⟩] 0
      ([.nodeStart "main[0].s1", .nodeFinish "main[0].s1" .succeeded] ++
        ([.nodeStart "main[1].s2", .nodeFinish "main[1].s2" .succeeded] ++ [])) none :=
    ExecGroups.consOk "main" ⟨[⟨"s1", "whale"⟩]⟩ [⟨[⟨"s2", "whale"⟩]⟩] 0 hg1 hm1
      (ExecGroups.consOk "main" ⟨[⟨"s2", "whale"⟩]⟩ [] 1 hg2 hm2
        (ExecGroups.nil "main" 2))
  have hx : ExecT envOK "main" tmplSteps
      ([.nodeStart "main[0].s1", .nodeFinish "main[0].s1" .succeeded] ++
        ([.nodeStart "main[1].s2", .nodeFinish "main[1].s2" .succeeded] ++ [])) none :=
    ExecT.steps "main" tmplSteps [⟨[⟨"s1", "whale"⟩]⟩, ⟨[⟨"s2", "whale"⟩]⟩] rfl rfl rfl hgs
  exact c6_steps_barrier envOK
    (by intro m hm; simp [envOK, oExitOK] at hm) "main" tmplSteps
    [⟨[⟨"s1", "whale"⟩]⟩, ⟨[⟨"s2", "whale"⟩]⟩]
    ([.nodeStart "main[0].s1", .nodeFinish "main[0].s1" .succeeded] ++
      ([.nodeStart "main[1].s2", .nodeFinish "main[1].s2" .succeeded] ++ []))
    none rfl rfl rfl hx

theorem execTasks_length (E : ExecEnv) (n : String) :
    ∀ (tasks : List DAGTask) (traces : List (List Event)) (errs : List String),
    ExecTasks E n tasks traces errs → traces.length = tasks.length := by
  intro tasks
  induction tasks with
  | nil =>
    intro traces errs h
    cases h
    rfl
  | cons t rest ih =>
    intro traces errs h
    cases h with
    | consNotFound =>
      rename_i traces2 errs2 hnf h2
      simpa using ih traces2 errs2 h2
    | consFound =>
      rename_i tmpl2 trace2 res2 traces2 errs2 hf hx h2
      simpa using ih traces2 errs2 h2

theorem execTasks_withDeps (E : ExecEnv) (n : String) :
    ∀ (tasks : List DAGTask) (traces : List (List Event)) (errs : List String),
    ExecTasks E n tasks traces errs → ∀ ds : DAGTask → List String,
    ExecTasks E n (tasks.map (fun t => t.withDeps (ds t))) traces errs := by
  intro tasks
  induction tasks with
  | nil =>
    intro traces errs h ds
    cases h
    exact ExecTasks.nil n
  | cons t rest ih =>
    intro traces errs h ds
    cases h with
    | consNotFound =>
      rename_i traces2 errs2 hnf h2
      exact ExecTasks.consNotFound n (t.withDeps (ds t)) _ hnf (ih traces2 errs2 h2 ds)
    | consFound =>
      rename_i tmpl2 trace2 res2 traces2 errs2 hf hx h2
      exact ExecTasks.consFound n (t.withDeps (ds t)) _ tmpl2 hf hx
        (ih traces2 errs2 h2 ds)

/-- Claim C7: for a task-graph template, every declared task is dispatched
(one complete per-task trace each, no dependency ordering enforced — the
declared dependencies can be changed arbitrarily without affecting the
execution), the overall trace is an interleaving of the complete per-task
traces (any other interleaving being admissible as well), every started node
reaches a terminal phase even when some fail, and the result is a failure
exactly when some task failed — a real collected error, reported only with
every task's full trace present. -/
theorem c7_dag (E : ExecEnv)
    (hwb : ∀ m, (E.o m).wait ≠ WaitResult.errNil)
    (n : String) (tmpl : Template) (d : DAGTemplate)
    (trace : List Event) (res : Option String)
    (hc : tmpl.container = none) (hs : tmpl.script = none)
    (hst : tmpl.steps = none) (hd : tmpl.dag = some d)
    (h : ExecT E n tmpl trace res) :
    DagClaimHolds E n tmpl d.tasks trace res ∧ goodTrace trace := by
  have hgood := execT_good E hwb h
  refine ⟨?_, hgood⟩
  cases h with
  | container =>
    rename_i c hc2
    rw [hc] at hc2
    cases hc2
  | script =>
    rename_i s r hc2 hs2 hr
    rw [hs] at hs2
    cases hs2
  | steps =>
    rename_i groups2 hc2 hs2 hst2 hg
    rw [hst] at hst2
    cases hst2
  | unsupported =>
    rename_i hc2 hs2 hst2 hd2
    rw [hd] at hd2
    cases hd2
  | dag =>
    rename_i d2 traces errs ht hc2 hs2 hst2 hd2 hm hres
    rw [hd] at hd2
    injection hd2 with hdd
    subst hdd
    refine ⟨traces, errs, execTasks_length E n d.tasks traces errs ht, ht, hm,
      ?_, ?_, ?_, ?_⟩
    · intro u hu
      exact ExecT.dag n tmpl d hc hs hst hd ht hu hres
    · intro ds
      exact execTasks_withDeps E n d.tasks traces errs ht ds
    · rcases hres with ⟨he, hr⟩ | ⟨e, hee, hr⟩
      · subst hr
        exact ⟨fun _ => he, fun _ => rfl⟩
      · subst hr
        constructor
        · intro hcon
          cases hcon
        · intro hcon
          subst hcon
          simp at hee
    · intro e2 hr2
      rcases hres with ⟨he, hr⟩ | ⟨e, hee, hr⟩
      · subst hr
        cases hr2
      · subst hr
        injection hr2 with hee2
        subst hee2
        exact hee

/-- Claim C7 witness: a two-task graph over the `whale` template, the second
task declaring a dependency on the first (which the controller ignores),
with every wait exiting 0. -/
theorem c7_dag_witness :
    DagClaimHolds envOK "graph" tmplDag
      [⟨"t1", "whale", []⟩, ⟨"t2", "whale", ["t1"]⟩]
      ([.nodeStart "graph.t1", .nodeFinish "graph.t1" .succeeded] ++
        [.nodeStart "graph.t2", .nodeFinish "graph.t2" .succeeded]) none ∧
    goodTrace
      ([.nodeStart "graph.t1", .nodeFinish "graph.t1" .succeeded] ++
        [.nodeStart "graph.t2", .nodeFinish "graph.t2" .succeeded]) := by
  have hxt1 : ExecT envOK "graph.t1" tmplWhale
      [.nodeStart "graph.t1", .nodeFinish "graph.t1" .succeeded] none :=
    ExecT.container "graph.t1" tmplWhale whaleC rfl
  have hxt2 : ExecT envOK "graph.t2" tmplWhale
      [.nodeStart "graph.t2", .nodeFinish "graph.t2" .succeeded] none :=
    ExecT.container "graph.t2" tmplWhale whaleC rfl
  have ht : ExecTasks envOK "graph" [⟨"t1", "whale", []⟩, ⟨"t2", "whale", ["t1"]⟩]
      [[.nodeStart "graph.t1", .nodeFinish "graph.t1" .succeeded],
       [.nodeStart "graph.t2", .nodeFinish "graph.t2" .succeeded]] [] :=
    ExecTasks.consFound "graph" ⟨"t1", "whale", []⟩ [⟨"t2", "whale", ["t1"]⟩]
      tmplWhale (rfl : findTemplate envOK.templates "whale" = some tmplWhale) hxt1
      (ExecTasks.consFound "graph" ⟨"t2", "whale", ["t1"]⟩ [] tmplWhale
        (rfl : findTemplate envOK.templates "whale" = some tmplWhale) hxt2
        (ExecTasks.nil "graph"))
  have hm : MergeAll
      [[.nodeStart "graph.t1", .nodeFinish "graph.t1" .succeeded],
       [.nodeStart "graph.t2", .nodeFinish "graph.t2" .succeeded]]
      ([.nodeStart "graph.t1", .nodeFinish "graph.t1" .succeeded] ++
        [.nodeStart "graph.t2", .nodeFinish "graph.t2" .succeeded]) :=
    MergeAll.cons (MergeAll.cons MergeAll.nil (merge_nil_right _)) (merge_append _ _)
  have hx : ExecT envOK "graph" tmplDag
      ([.nodeStart "graph.t1", .nodeFinish "graph.t1" .succeeded] ++
        [.nodeStart "graph.t2", .nodeFinish "graph.t2" .succeeded]) none :=
    ExecT.dag "graph" tmplDag ⟨[⟨"t1", "whale", []⟩, ⟨"t2", "whale", ["t1"]⟩]⟩
      rfl rfl rfl rfl ht hm (Or.inl ⟨rfl, rfl⟩)
  exact c7_dag envOK (by intro m hm2; simp [envOK, oExitOK] at hm2) "graph" tmplDag
    ⟨[⟨"t1", "whale", []⟩, ⟨"t2", "whale", ["t1"]⟩]⟩
    ([.nodeStart "graph.t1", .nodeFinish "graph.t1" .succeeded] ++
      [.nodeStart "graph.t2", .nodeFinish "graph.t2" .succeeded]) none
    rfl rfl rfl rfl hx

/-- Claim C10 witness: the panic equivalence at a concrete empty-command
script template and at a concrete well-formed one. -/
theorem c10_script_panic_witness :
    (executeScript (fun s => s) oExitOK "n1" tmplScriptEmptyCmd "run-a" = none ↔
      (⟨"python:alpine", [], "print(1)", "", []⟩ : ScriptSpec).command = []) ∧
    (executeScriptTemplate (fun s => s) oExitOK "n1" tmplScriptEmptyCmd "run-a" [] = none ↔
      (⟨"python:alpine", [], "print(1)", "", []⟩ : ScriptSpec).command = []) :=
  c10_script_panic (fun s => s) oExitOK "n1" "run-a" tmplScriptEmptyCmd
    ⟨"python:alpine", [], "print(1)", "", []⟩ [] (by decide)

end ArgoLocal
